import Mathlib

/-!
Verification of the OrbitViz-Al analytics services, shallowly embedded from
`src/frontend/src/services/collisionService.js`,
`src/frontend/src/services/satelliteService.js` and the pass-prediction
section of `src/frontend/src/services/i18n.js`.

JavaScript numbers are modelled as exact rationals (`ℚ`), timestamps
(millisecond epochs) as integers (`ℤ`).  `Math.sqrt` has no exact rational
counterpart, so every definition that calls it is parametrised by a function
`sqrt : ℚ → ℚ` standing for `Math.sqrt`; the concrete instance `ratSqrt`
(exact on perfect squares) is used to evaluate witnesses.  The opaque SGP4
record `satrec`, consumed only through `satellite.propagate`, is modelled as
the propagation function itself: `ℤ → Option Pos3`, where `none` stands for a
null position or a thrown propagation error.
-/

namespace OrbitViz

/-! ### collisionService.js : thresholds and risk classification -/

/-- `COLLISION_THRESHOLDS.CRITICAL` (km). -/
def CRITICAL : ℚ := 1

/-- `COLLISION_THRESHOLDS.HIGH` (km). -/
def HIGH : ℚ := 5

/-- `COLLISION_THRESHOLDS.MODERATE` (km). -/
def MODERATE : ℚ := 10

/-- `COLLISION_THRESHOLDS.LOW` (km). -/
def LOW : ℚ := 25

/-- `getRiskLevel` from collisionService.js. -/
def getRiskLevel (distance : ℚ) : String :=
  if distance < CRITICAL then "critical"
  else if distance < HIGH then "high"
  else if distance < MODERATE then "moderate"
  else if distance < LOW then "low"
  else "safe"

/-- `calculateCollisionProbability` from collisionService.js.  The source also
takes a `relativeVelocity` parameter (default 10) that the body never reads;
it is omitted here. -/
def calculateCollisionProbability (distance : ℚ) : ℚ :=
  if distance < CRITICAL then
    min 0.99 (1 - (distance / CRITICAL) * 0.5)
  else if distance < HIGH then
    0.1 + (HIGH - distance) / HIGH * 0.4
  else if distance < MODERATE then
    0.01 + (MODERATE - distance) / MODERATE * 0.09
  else if distance < LOW then
    0.001 + (LOW - distance) / LOW * 0.009
  else 0.0001

/-- `calculateCollisionProbability` is antitone on nonnegative distances. -/
lemma prob_antitone (d1 d2 : ℚ) (h1 : 0 ≤ d1) (h12 : d1 ≤ d2) :
    calculateCollisionProbability d2 ≤ calculateCollisionProbability d1 := by
  have h2 : 0 ≤ d2 := le_trans h1 h12
  unfold calculateCollisionProbability CRITICAL HIGH MODERATE LOW
  split_ifs with a1 a2 a3 a4 b1 b2 b3 b4 <;>
    first
      | (simp only [min_def]; split_ifs <;> linarith)
      | linarith
      | norm_num

/-- `calculateCollisionProbability` lies strictly between 0 and 1 on
nonnegative distances. -/
lemma prob_bounds (d : ℚ) (hd : 0 ≤ d) :
    0 < calculateCollisionProbability d ∧ calculateCollisionProbability d < 1 := by
  unfold calculateCollisionProbability CRITICAL HIGH MODERATE LOW
  split_ifs with a1 a2 a3 a4 <;>
    first
      | (simp only [min_def]; split_ifs <;> constructor <;> linarith)
      | (constructor <;> linarith)
      | (constructor <;> norm_num)

/-- C1: for every distance d ≥ 0, `getRiskLevel` returns critical iff d < 1 km,
high iff 1 ≤ d < 5, moderate iff 5 ≤ d < 10, low iff 10 ≤ d < 25, and safe
otherwise; in particular 0.999 km maps to critical and 1.001 km to high.
`getRiskLevel` is a plain function of the distance, so the classification
depends on nothing else. -/
theorem risk_bands (d : ℚ) (hd : 0 ≤ d) :
    (getRiskLevel d = "critical" ↔ d < 1) ∧
    (getRiskLevel d = "high" ↔ 1 ≤ d ∧ d < 5) ∧
    (getRiskLevel d = "moderate" ↔ 5 ≤ d ∧ d < 10) ∧
    (getRiskLevel d = "low" ↔ 10 ≤ d ∧ d < 25) ∧
    (getRiskLevel d = "safe" ↔ 25 ≤ d) ∧
    getRiskLevel (999/1000) = "critical" ∧ getRiskLevel (1001/1000) = "high" := by
  refine ⟨?_, ?_, ?_, ?_, ?_,
      by norm_num [getRiskLevel, CRITICAL, HIGH, MODERATE, LOW],
      by norm_num [getRiskLevel, CRITICAL, HIGH, MODERATE, LOW]⟩ <;>
    (unfold getRiskLevel CRITICAL HIGH MODERATE LOW;
     split_ifs with h1 h2 h3 h4 <;> simp <;> intros <;>
       first
         | linarith
         | (constructor <;> linarith))

/-- Witness for `risk_bands` at d = 3. -/
theorem risk_bands_witness :
    getRiskLevel 3 = "high" ↔ (1 : ℚ) ≤ 3 ∧ (3 : ℚ) < 5 :=
  (risk_bands 3 (by norm_num)).2.1

/-- C8: for every d ≥ 0 the collision-probability heuristic lies strictly
between 0 and 1, and it is monotonically decreasing in distance within each
risk band (in fact the proof shows it is antitone on all of [0, ∞), which in
particular makes it increase toward its cap as d approaches 0 inside the
critical band). -/
theorem probability_bounds_and_band_monotone (d d1 d2 : ℚ) (hd : 0 ≤ d)
    (h1 : 0 ≤ d1) (h12 : d1 < d2) (hband : getRiskLevel d1 = getRiskLevel d2) :
    (0 < calculateCollisionProbability d ∧ calculateCollisionProbability d < 1) ∧
    calculateCollisionProbability d2 ≤ calculateCollisionProbability d1 :=
  ⟨prob_bounds d hd, prob_antitone d1 d2 h1 (le_of_lt h12)⟩

/-- Witness for `probability_bounds_and_band_monotone` at d = 2, d1 = 2,
d2 = 3 (both in the high band). -/
theorem probability_bounds_and_band_monotone_witness :
    (0 < calculateCollisionProbability 2 ∧ calculateCollisionProbability 2 < 1) ∧
    calculateCollisionProbability 3 ≤ calculateCollisionProbability 2 :=
  probability_bounds_and_band_monotone 2 2 3 (by norm_num) (by norm_num)
    (by norm_num) (by norm_num [getRiskLevel, CRITICAL, HIGH, MODERATE, LOW])

/-! ### satelliteService.js : positions, and collisionService.js : distances -/

/-- A 3-component position vector. -/
structure Pos3 where
  x : ℚ
  y : ℚ
  z : ℚ
deriving DecidableEq

/-- `SCALE_FACTOR` from satelliteService.js (1 unit = 1000 km). -/
def SCALE_FACTOR : ℚ := 1 / 1000

/-- `eciToThreeJs` from satelliteService.js. -/
def eciToThreeJs (eciCoords : Pos3) : Pos3 :=
  { x := eciCoords.x * SCALE_FACTOR
    y := eciCoords.z * SCALE_FACTOR
    z := -eciCoords.y * SCALE_FACTOR }

/-- A satellite record.  The source's `satrec` is an opaque SGP4 record that
is only ever consumed through `satellite.propagate(satrec, date)`; it is
modelled as that propagation function itself, with `none` standing for a null
position or a thrown propagation error. -/
structure Sat where
  noradId : ℕ
  altitude : Option ℚ
  satrec : ℤ → Option Pos3

/-- `getPositionAtTime` from satelliteService.js: propagate, returning null on
failure, otherwise the scaled Three.js coordinates. -/
def getPositionAtTime (satrec : ℤ → Option Pos3) (date : ℤ) : Option Pos3 :=
  (satrec date).map eciToThreeJs

/-- `calculateDistance` from collisionService.js, parametrised by a model
`sqrt` of `Math.sqrt`.  Returns `none` (null) when either position is
unavailable. -/
def calculateDistance (sqrt : ℚ → ℚ) (sat1 sat2 : Sat) (time : ℤ) : Option ℚ :=
  match getPositionAtTime sat1.satrec time, getPositionAtTime sat2.satrec time with
  | some pos1, some pos2 =>
    let dx := (pos1.x - pos2.x) / SCALE_FACTOR
    let dy := (pos1.y - pos2.y) / SCALE_FACTOR
    let dz := (pos1.z - pos2.z) / SCALE_FACTOR
    some (sqrt (dx * dx + dy * dy + dz * dz))
  | _, _ => none

/-- A concrete model of `Math.sqrt` used to evaluate witnesses: exact on
perfect squares of naturals. -/
def ratSqrt (q : ℚ) : ℚ :=
  (Nat.sqrt q.num.toNat : ℚ) / (Nat.sqrt q.den : ℚ)

/-! ### collisionService.js : findAllConjunctions -/

/-- A Conjunction result object. -/
structure Conjunction where
  satellite1 : Sat
  satellite2 : Sat
  distance : ℚ
  time : ℤ
  risk : String
  probability : ℚ

/-- The template-string key `` `${a.noradId}-${b.noradId}` `` used for the
`checked` set. -/
def pairKey (a b : Sat) : String :=
  toString a.noradId ++ "-" ++ toString b.noradId

/-- The inner loop of `findAllConjunctions` (index `j` running over the
satellites after `a`), threading the `checked` set. -/
def conjInner (sqrt : ℚ → ℚ) (time : ℤ) (threshold : ℚ) (a : Sat) :
    List Sat → List String → List Conjunction × List String
  | [], checked => ([], checked)
  | b :: rest, checked =>
    if pairKey a b ∈ checked then conjInner sqrt time threshold a rest checked
    else
      let checked' := pairKey a b :: checked
      if 50 < |a.altitude.getD 0 - b.altitude.getD 0| then
        conjInner sqrt time threshold a rest checked'
      else
        match calculateDistance sqrt a b time with
        | none => conjInner sqrt time threshold a rest checked'
        | some distance =>
          if distance ≤ threshold then
            let r := conjInner sqrt time threshold a rest checked'
            (⟨a, b, distance, time, getRiskLevel distance,
              calculateCollisionProbability distance⟩ :: r.1, r.2)
          else conjInner sqrt time threshold a rest checked'

/-- The outer loop of `findAllConjunctions` (index `i`). -/
def conjOuter (sqrt : ℚ → ℚ) (time : ℤ) (threshold : ℚ) :
    List Sat → List String → List Conjunction
  | [], _ => []
  | a :: rest, checked =>
    let r := conjInner sqrt time threshold a rest checked
    r.1 ++ conjOuter sqrt time threshold rest r.2

/-- `findAllConjunctions` from collisionService.js.  The source's option
defaults are `threshold = COLLISION_THRESHOLDS.LOW = 25` and
`maxResults = 50`; `Array.prototype.sort` with the comparator
`(a, b) => a.distance - b.distance` is modelled as a stable sort by
nondecreasing distance. -/
def findAllConjunctions (sqrt : ℚ → ℚ) (satellites : List Sat) (time : ℤ)
    (threshold : ℚ) (maxResults : ℕ) : List Conjunction :=
  let conjunctions := conjOuter sqrt time threshold satellites []
  (conjunctions.insertionSort (fun a b => a.distance ≤ b.distance)).take maxResults

/-- Two Conjunction objects report the same unordered pair of noradIds. -/
def sameUnorderedPair (c1 c2 : Conjunction) : Prop :=
  (c1.satellite1.noradId = c2.satellite1.noradId ∧
    c1.satellite2.noradId = c2.satellite2.noradId) ∨
  (c1.satellite1.noradId = c2.satellite2.noradId ∧
    c1.satellite2.noradId = c2.satellite1.noradId)

lemma sameUnorderedPair_symm (x y : Conjunction) :
    sameUnorderedPair x y → sameUnorderedPair y x := by
  intro h
  rcases h with ⟨e1, e2⟩ | ⟨e1, e2⟩
  · exact Or.inl ⟨e1.symm, e2.symm⟩
  · exact Or.inr ⟨e2.symm, e1.symm⟩

lemma conjInner_mem (sqrt : ℚ → ℚ) (time : ℤ) (threshold : ℚ) (a : Sat) :
    ∀ (l : List Sat) (checked : List String) (c : Conjunction),
      c ∈ (conjInner sqrt time threshold a l checked).1 →
      c.satellite1 = a ∧ ∃ b ∈ l, c.satellite2 = b := by
  intro l
  induction l with
  | nil => intro checked c hc; simp [conjInner] at hc
  | cons b rest ih =>
    intro checked c hc
    simp only [conjInner] at hc
    repeat' split at hc
    all_goals
      first
        | (rcases List.mem_cons.mp hc with rfl | hc'
           · exact ⟨rfl, b, List.mem_cons_self b rest, rfl⟩
           · obtain ⟨h1, b', hb', h2⟩ := ih _ c hc'
             exact ⟨h1, b', List.mem_cons_of_mem _ hb', h2⟩)
        | (obtain ⟨h1, b', hb', h2⟩ := ih _ c hc
           exact ⟨h1, b', List.mem_cons_of_mem _ hb', h2⟩)

lemma conjOuter_mem (sqrt : ℚ → ℚ) (time : ℤ) (threshold : ℚ) :
    ∀ (l : List Sat) (checked : List String) (c : Conjunction),
      c ∈ conjOuter sqrt time threshold l checked →
      ∃ x ∈ l, ∃ y ∈ l, c.satellite1 = x ∧ c.satellite2 = y := by
  intro l
  induction l with
  | nil => intro checked c hc; simp [conjOuter] at hc
  | cons a rest ih =>
    intro checked c hc
    simp only [conjOuter] at hc
    rcases List.mem_append.mp hc with hc' | hc'
    · obtain ⟨h1, b, hb, h2⟩ := conjInner_mem sqrt time threshold a rest _ c hc'
      exact ⟨a, List.mem_cons_self a rest, b, List.mem_cons_of_mem _ hb, h1, h2⟩
    · obtain ⟨x, hx, y, hy, h1, h2⟩ := ih _ c hc'
      exact ⟨x, List.mem_cons_of_mem _ hx, y, List.mem_cons_of_mem _ hy, h1, h2⟩

lemma conjInner_pairwise (sqrt : ℚ → ℚ) (time : ℤ) (threshold : ℚ) (a : Sat) :
    ∀ (l : List Sat) (checked : List String),
      (∀ b ∈ l, a.noradId ≠ b.noradId) →
      l.Pairwise (fun x y => x.noradId ≠ y.noradId) →
      ((conjInner sqrt time threshold a l checked).1).Pairwise
        (fun c1 c2 => ¬ sameUnorderedPair c1 c2) := by
  intro l
  induction l with
  | nil => intro checked _ _; simp [conjInner]
  | cons b rest ih =>
    intro checked hha hp
    rw [List.pairwise_cons] at hp
    obtain ⟨hhb, hrest⟩ := hp
    have hha' : ∀ b' ∈ rest, a.noradId ≠ b'.noradId :=
      fun b' hb' => hha b' (List.mem_cons_of_mem _ hb')
    simp only [conjInner]
    repeat' split
    all_goals
      first
        | (simp only [List.pairwise_cons]
           refine ⟨?_, ih _ hha' hrest⟩
           intro c' hc' hsame
           obtain ⟨h1, b', hb', h2⟩ := conjInner_mem sqrt time threshold a rest _ c' hc'
           simp only [sameUnorderedPair] at hsame
           rcases hsame with ⟨e1, e2⟩ | ⟨e1, e2⟩
           · exact hhb b' hb' (by rw [← h2, ← e2])
           · exact hha b' (List.mem_cons_of_mem _ hb') (by rw [← h2, ← e1]))
        | exact ih _ hha' hrest

lemma conjOuter_pairwise (sqrt : ℚ → ℚ) (time : ℤ) (threshold : ℚ) :
    ∀ (l : List Sat) (checked : List String),
      l.Pairwise (fun x y => x.noradId ≠ y.noradId) →
      (conjOuter sqrt time threshold l checked).Pairwise
        (fun c1 c2 => ¬ sameUnorderedPair c1 c2) := by
  intro l
  induction l with
  | nil => intro checked _; simp [conjOuter]
  | cons a rest ih =>
    intro checked hp
    rw [List.pairwise_cons] at hp
    obtain ⟨hha, hrest⟩ := hp
    simp only [conjOuter]
    rw [List.pairwise_append]
    refine ⟨conjInner_pairwise sqrt time threshold a rest _ hha hrest, ih _ hrest, ?_⟩
    intro c1 hc1 c2 hc2 hsame
    obtain ⟨h1, b, hb, h2⟩ := conjInner_mem sqrt time threshold a rest _ c1 hc1
    obtain ⟨x, hx, y, hy, g1, g2⟩ := conjOuter_mem sqrt time threshold rest _ c2 hc2
    rcases hsame with ⟨e1, e2⟩ | ⟨e1, e2⟩
    · exact hha x hx (by rw [← g1, ← e1, h1])
    · exact hha y hy (by rw [← g2, ← e1, h1])

/-- C3: on records with pairwise distinct noradIds, `findAllConjunctions`
never returns two Conjunction objects with the same unordered pair of
noradIds: each unordered pair is reported at most once per invocation. -/
theorem conjunctions_unique_pairs (sqrt : ℚ → ℚ) (sats : List Sat) (time : ℤ)
    (threshold : ℚ) (maxResults : ℕ)
    (hids : sats.Pairwise (fun x y => x.noradId ≠ y.noradId)) :
    (findAllConjunctions sqrt sats time threshold maxResults).Pairwise
      (fun c1 c2 => ¬ sameUnorderedPair c1 c2) := by
  have h := conjOuter_pairwise sqrt time threshold sats [] hids
  have hsym : ∀ {x y : Conjunction},
      ¬ sameUnorderedPair x y → ¬ sameUnorderedPair y x := by
    intro x y hxy hs
    exact hxy (sameUnorderedPair_symm y x hs)
  have hperm := List.perm_insertionSort
    (fun a b : Conjunction => a.distance ≤ b.distance)
    (conjOuter sqrt time threshold sats [])
  exact List.Pairwise.sublist (List.take_sublist _ _)
    ((List.Perm.pairwise_iff hsym hperm).mpr h)

/-- A satellite fixed at the ECI origin, noradId 1, altitude 400 km. -/
def satA : Sat := ⟨1, some 400, fun _ => some ⟨0, 0, 0⟩⟩

/-- A satellite fixed at ECI (25, 0, 0) km — exactly 25 km from `satA` —
noradId 2, altitude 400 km. -/
def satB : Sat := ⟨2, some 400, fun _ => some ⟨25, 0, 0⟩⟩

/-- Witness for `conjunctions_unique_pairs` on the pair `[satA, satB]`. -/
theorem conjunctions_unique_pairs_witness :
    (findAllConjunctions ratSqrt [satA, satB] 0 25 50).Pairwise
      (fun c1 c2 => ¬ sameUnorderedPair c1 c2) :=
  conjunctions_unique_pairs ratSqrt [satA, satB] 0 25 50
    (by simp [List.pairwise_cons, satA, satB])

lemma conjInner_risk (sqrt : ℚ → ℚ) (time : ℤ) (threshold : ℚ) (a : Sat) :
    ∀ (l : List Sat) (checked : List String) (c : Conjunction),
      c ∈ (conjInner sqrt time threshold a l checked).1 →
      c.risk = getRiskLevel c.distance ∧ c.distance ≤ threshold := by
  intro l
  induction l with
  | nil => intro checked c hc; simp [conjInner] at hc
  | cons b rest ih =>
    intro checked c hc
    simp only [conjInner] at hc
    repeat' split at hc
    all_goals
      first
        | (rcases List.mem_cons.mp hc with rfl | hc'
           · constructor
             · rfl
             · assumption
           · exact ih _ c hc')
        | exact ih _ c hc

lemma conjOuter_risk (sqrt : ℚ → ℚ) (time : ℤ) (threshold : ℚ) :
    ∀ (l : List Sat) (checked : List String) (c : Conjunction),
      c ∈ conjOuter sqrt time threshold l checked →
      c.risk = getRiskLevel c.distance ∧ c.distance ≤ threshold := by
  intro l
  induction l with
  | nil => intro checked c hc; simp [conjOuter] at hc
  | cons a rest ih =>
    intro checked c hc
    simp only [conjOuter] at hc
    rcases List.mem_append.mp hc with hc' | hc'
    · exact conjInner_risk sqrt time threshold a rest _ c hc'
    · exact ih _ c hc'

lemma safe_imp_ge_25 (d : ℚ) (h : getRiskLevel d = "safe") : 25 ≤ d := by
  unfold getRiskLevel CRITICAL HIGH MODERATE LOW at h
  split_ifs at h with h1 h2 h3 h4 <;> first | linarith | simp at h

/-- C7 (amended): with the default options (threshold 25 km, maxResults 50),
every Conjunction returned by `findAllConjunctions` whose riskLevel is safe
has distance exactly 25 km — the inclusion test is `distance ≤ 25` while the
risk bands use strict `<`, so the boundary point 25 km is included yet
classified safe. -/
theorem default_threshold_safe_only_at_boundary (sqrt : ℚ → ℚ) (sats : List Sat)
    (time : ℤ) (c : Conjunction)
    (hc : c ∈ findAllConjunctions sqrt sats time 25 50)
    (hsafe : c.risk = "safe") : c.distance = 25 := by
  have hmem : c ∈ conjOuter sqrt time 25 sats [] := by
    have h1 := List.take_subset 50 _ hc
    exact (List.perm_insertionSort
      (fun a b : Conjunction => a.distance ≤ b.distance) _).subset h1
  obtain ⟨hr, hle⟩ := conjOuter_risk sqrt time 25 sats [] c hmem
  rw [hr] at hsafe
  exact le_antisymm hle (safe_imp_ge_25 _ hsafe)

/-- The Conjunction object produced for `satA` and `satB` at time 0. -/
def conjAB : Conjunction := ⟨satA, satB, 25, 0, "safe", 1/10000⟩

lemma ratSqrt_625 : ratSqrt 625 = 25 := by
  have h : Nat.sqrt 625 = 25 := by
    rw [show (625 : ℕ) = 25 * 25 from rfl]
    exact Nat.sqrt_eq 25
  unfold ratSqrt
  norm_num [show ((625 : ℚ)).num = 625 from rfl, show ((625 : ℚ)).den = 1 from rfl,
    show ((625 : ℤ)).toNat = 625 from rfl, h]

lemma findAll_satAB_eval :
    findAllConjunctions ratSqrt [satA, satB] 0 25 50 = [conjAB] := by
  have hd : calculateDistance ratSqrt satA satB 0 = some 25 := by
    simp [calculateDistance, getPositionAtTime, satA, satB, eciToThreeJs, SCALE_FACTOR]
    norm_num
    exact ratSqrt_625
  simp only [findAllConjunctions, conjOuter, conjInner, conjAB]
  rw [hd]
  norm_num [satA, satB, getRiskLevel, CRITICAL, HIGH, MODERATE, LOW,
    calculateCollisionProbability, List.insertionSort, List.orderedInsert]

/-- C7 counterexample: under the default options, the pair `satA`/`satB` at
exactly 25 km separation is returned as a Conjunction classified safe, so the
claim that no returned Conjunction has riskLevel safe is false. -/
theorem default_threshold_returns_safe_counterexample :
    (findAllConjunctions ratSqrt [satA, satB] 0 25 50).map
      (fun c => (c.distance, c.risk)) = [(25, "safe")] := by
  rw [findAll_satAB_eval]
  rfl

/-- Witness for `default_threshold_safe_only_at_boundary` on the concrete
safe-classified conjunction `conjAB`. -/
theorem default_threshold_safe_only_at_boundary_witness :
    conjAB.distance = 25 :=
  default_threshold_safe_only_at_boundary ratSqrt [satA, satB] 0 conjAB
    (findAll_satAB_eval ▸ List.mem_singleton.mpr rfl) rfl

/-! ### collisionService.js : findCloseApproaches -/

/-- A close-approach result object. -/
structure Approach where
  satellite1 : Sat
  satellite2 : Sat
  distance : ℚ
  time : Option ℤ
  risk : String

/-- Sampled times of `findCloseApproaches`: every 5 minutes from `startTime`
to `startTime + hoursAhead` hours inclusive. -/
def approachTimes (startTime : ℤ) (hoursAhead : ℕ) : List ℤ :=
  (List.range (12 * hoursAhead + 1)).map (fun k => startTime + (k : ℤ) * 300000)

/-- The per-candidate minimum-distance scan of `findCloseApproaches`:
`minDistance` starts at Infinity (modelled by `none`) and each sampled
distance that is non-null and strictly smaller replaces it. -/
def minScan (sqrt : ℚ → ℚ) (targetSat : Sat) (times : List ℤ) (candidate : Sat) :
    Option (ℚ × ℤ) :=
  times.foldl
    (fun acc t =>
      match calculateDistance sqrt targetSat candidate t with
      | none => acc
      | some distance =>
        match acc with
        | none => some (distance, t)
        | some md => if distance < md.1 then some (distance, t) else acc)
    none

/-- The Approach object a candidate contributes, if any: only when its minimum
sampled distance is finite and `≤ threshold`. -/
def approachOf (sqrt : ℚ → ℚ) (targetSat : Sat) (threshold : ℚ) (times : List ℤ)
    (candidate : Sat) : Option Approach :=
  match minScan sqrt targetSat times candidate with
  | none => none
  | some md =>
    if md.1 ≤ threshold then
      some ⟨targetSat, candidate, md.1, some md.2, getRiskLevel md.1⟩
    else none

/-- `findCloseApproaches` from collisionService.js.  Defaults in the source:
`hoursAhead = 24`, `threshold = 25`, `maxResults = 10`.  The candidate filter
keeps satellites with a different noradId whose altitude (`|| 0`) differs from
the target's by less than 100 km. -/
def findCloseApproaches (sqrt : ℚ → ℚ) (targetSat : Sat) (allSatellites : List Sat)
    (startTime : ℤ) (hoursAhead : ℕ) (threshold : ℚ) (maxResults : ℕ) : List Approach :=
  let times := approachTimes startTime hoursAhead
  let candidates := allSatellites.filter (fun sat =>
    sat.noradId ≠ targetSat.noradId ∧
      |(sat.altitude.getD 0) - (targetSat.altitude.getD 0)| < 100)
  let approaches := candidates.filterMap (approachOf sqrt targetSat threshold times)
  (approaches.insertionSort (fun a b => a.distance ≤ b.distance)).take maxResults

lemma minScan_none (sqrt : ℚ → ℚ) (targetSat candidate : Sat) (times : List ℤ)
    (hfail : ∀ t ∈ times, calculateDistance sqrt targetSat candidate t = none) :
    minScan sqrt targetSat times candidate = none := by
  unfold minScan
  induction times with
  | nil => rfl
  | cons t ts ih =>
    rw [List.foldl_cons, hfail t (List.mem_cons_self t ts)]
    exact ih (fun t' ht' => hfail t' (List.mem_cons_of_mem _ ht'))

/-- C4: a propagation failure only skips the affected sample or pair.
(i) `calculateDistance` returns null exactly when either position is
unavailable; (ii) a candidate all of whose samples fail contributes nothing:
the result of `findCloseApproaches` is the same as if that candidate were not
in the input list at all — the remaining pairs are processed unchanged and no
error is raised. -/
theorem propagation_failure_is_contained (sqrt : ℚ → ℚ) (s1 s2 : Sat) (t : ℤ)
    (targetSat c : Sat) (pre post : List Sat) (startTime : ℤ) (hoursAhead : ℕ)
    (threshold : ℚ) (maxResults : ℕ)
    (hfail : ∀ tt ∈ approachTimes startTime hoursAhead,
      calculateDistance sqrt targetSat c tt = none) :
    (calculateDistance sqrt s1 s2 t = none ↔
      (getPositionAtTime s1.satrec t = none ∨ getPositionAtTime s2.satrec t = none)) ∧
    findCloseApproaches sqrt targetSat (pre ++ c :: post) startTime hoursAhead
        threshold maxResults =
      findCloseApproaches sqrt targetSat (pre ++ post) startTime hoursAhead
        threshold maxResults := by
  constructor
  · unfold calculateDistance
    cases h1 : getPositionAtTime s1.satrec t <;>
      cases h2 : getPositionAtTime s2.satrec t <;> simp
  · unfold findCloseApproaches
    dsimp only
    rw [List.filter_append, List.filter_append, List.filter_cons]
    split_ifs with hkeep
    · rw [List.filterMap_append, List.filterMap_append, List.filterMap_cons]
      have : approachOf sqrt targetSat threshold (approachTimes startTime hoursAhead) c
          = none := by
        unfold approachOf
        rw [minScan_none sqrt targetSat c _ hfail]
      rw [this]
    · rfl

/-- A satellite whose propagation always fails, noradId 3, altitude 400 km. -/
def satFail : Sat := ⟨3, some 400, fun _ => none⟩

/-- Witness for `propagation_failure_is_contained`: with target `satA`, the
always-failing `satFail` is silently dropped while `satB` is still processed. -/
theorem propagation_failure_is_contained_witness :
    (calculateDistance ratSqrt satA satFail 0 = none ↔
      (getPositionAtTime satA.satrec 0 = none ∨
        getPositionAtTime satFail.satrec 0 = none)) ∧
    findCloseApproaches ratSqrt satA ([] ++ satFail :: [satB]) 0 0 25 10 =
      findCloseApproaches ratSqrt satA ([] ++ [satB]) 0 0 25 10 :=
  propagation_failure_is_contained ratSqrt satA satFail 0 satA satFail [] [satB]
    0 0 25 10
    (by
      intro tt htt
      simp [calculateDistance, getPositionAtTime, satFail])

/-! ### i18n.js (pass-prediction section) : cardinal directions -/

/-- The sixteen-point compass rose. -/
def directions : List String :=
  ["N", "NNE", "NE", "ENE", "E", "ESE", "SE", "SSE",
   "S", "SSW", "SW", "WSW", "W", "WNW", "NW", "NNW"]

/-- `Math.round` on rationals: round half away from zero is `⌊x + 1/2⌋` for
JavaScript's `Math.round` (which rounds half toward +∞). -/
def jsRound (q : ℚ) : ℤ := ⌊q + 1 / 2⌋

/-- `getCardinalDirection` from i18n.js.  `%` is JavaScript's truncating
remainder (`Int.tmod`); an index outside the array bounds would yield
`undefined`, modelled by `none`. -/
def getCardinalDirection (azimuth : ℚ) : Option String :=
  let index : ℤ := (jsRound (azimuth / 22.5)).tmod 16
  if 0 ≤ index then directions[index.toNat]? else none

/-- C10: for every azimuth in [0, 360), `getCardinalDirection` returns one of
the sixteen compass strings — the index `Math.round(azimuth / 22.5) % 16`
always lies within the bounds of the `directions` array. -/
theorem cardinal_direction_total (azimuth : ℚ) (h0 : 0 ≤ azimuth)
    (h360 : azimuth < 360) :
    ∃ s, getCardinalDirection azimuth = some s ∧ s ∈ directions := by
  unfold getCardinalDirection
  have hr : 0 ≤ jsRound (azimuth / 22.5) := by
    unfold jsRound
    rw [Int.le_floor]
    have : (0 : ℚ) ≤ azimuth / 22.5 := by positivity
    push_cast
    linarith
  have hmod0 : 0 ≤ (jsRound (azimuth / 22.5)).tmod 16 := Int.tmod_nonneg 16 hr
  have hmod16 : (jsRound (azimuth / 22.5)).tmod 16 < 16 :=
    Int.tmod_lt_of_pos _ (by norm_num)
  have hlt : ((jsRound (azimuth / 22.5)).tmod 16).toNat < directions.length := by
    have : ((jsRound (azimuth / 22.5)).tmod 16).toNat < 16 := by omega
    simpa [directions] using this
  rw [if_pos hmod0]
  exact ⟨directions[((jsRound (azimuth / 22.5)).tmod 16).toNat],
    by simp [List.getElem?_eq_getElem hlt], List.getElem_mem hlt⟩

/-- Witness for `cardinal_direction_total` at azimuth 100 (→ "E"). -/
theorem cardinal_direction_total_witness :
    ∃ s, getCardinalDirection 100 = some s ∧ s ∈ directions :=
  cardinal_direction_total 100 (by norm_num) (by norm_num)

/-! ### i18n.js (pass-prediction section) : calculatePasses -/

/-- `MIN_ELEVATION` (degrees) from i18n.js. -/
def MIN_ELEVATION : ℚ := 10

/-- `TIME_STEP` (milliseconds) from i18n.js. -/
def TIME_STEP : ℤ := 60000

/-- A look angle as produced by `getLookAngle` (degrees / degrees / km). -/
structure LookAngle where
  azimuth : ℚ
  elevation : ℚ
  rng : ℚ
deriving DecidableEq

/-- A sample stored in a pass's `points` list. -/
structure PassPoint where
  time : ℤ
  azimuth : ℚ
  elevation : ℚ
  rng : ℚ
deriving DecidableEq

/-- The in-progress pass accumulator (`currentPass` before its end fields are
assigned). -/
structure CurrentPass where
  startTime : ℤ
  startAzimuth : ℚ
  startDirection : Option String
  maxElevation : ℚ
  maxElevationTime : ℤ
  maxAzimuth : ℚ
  points : List PassPoint
deriving DecidableEq

/-- A completed Pass object.  `endAzimuth`/`endDirection` are `none` when the
corresponding JS fields were never assigned (the boundary-close path). -/
structure Pass where
  startTime : ℤ
  startAzimuth : ℚ
  startDirection : Option String
  maxElevation : ℚ
  maxElevationTime : ℤ
  maxAzimuth : ℚ
  points : List PassPoint
  endTime : ℤ
  endAzimuth : Option ℚ
  endDirection : Option String
  duration : ℚ
deriving DecidableEq

/-- The `currentPass` object created on the first above-threshold sample. -/
def newCurrentPass (time : ℤ) (la : LookAngle) : CurrentPass :=
  { startTime := time
    startAzimuth := la.azimuth
    startDirection := getCardinalDirection la.azimuth
    maxElevation := la.elevation
    maxElevationTime := time
    maxAzimuth := la.azimuth
    points := [] }

/-- The running-maximum update (strict `>` comparison in the source). -/
def trackMax (cp : CurrentPass) (time : ℤ) (la : LookAngle) : CurrentPass :=
  if cp.maxElevation < la.elevation then
    { cp with
        maxElevation := la.elevation
        maxElevationTime := time
        maxAzimuth := la.azimuth }
  else cp

/-- Closing a pass on the first below-threshold sample: records end time,
end azimuth/direction and duration (seconds). -/
def closePass (cp : CurrentPass) (time : ℤ) (la : LookAngle) : Pass :=
  { startTime := cp.startTime
    startAzimuth := cp.startAzimuth
    startDirection := cp.startDirection
    maxElevation := cp.maxElevation
    maxElevationTime := cp.maxElevationTime
    maxAzimuth := cp.maxAzimuth
    points := cp.points
    endTime := time
    endAzimuth := some la.azimuth
    endDirection := getCardinalDirection la.azimuth
    duration := ((time - cp.startTime : ℤ) : ℚ) / 1000 }

/-- Closing a pass at the horizon boundary: the source assigns only `endTime`
and `duration`; `endAzimuth`/`endDirection` stay undefined. -/
def boundaryClose (cp : CurrentPass) (time : ℤ) : Pass :=
  { startTime := cp.startTime
    startAzimuth := cp.startAzimuth
    startDirection := cp.startDirection
    maxElevation := cp.maxElevation
    maxElevationTime := cp.maxElevationTime
    maxAzimuth := cp.maxAzimuth
    points := cp.points
    endTime := time
    endAzimuth := none
    endDirection := none
    duration := ((time - cp.startTime : ℤ) : ℚ) / 1000 }

/-- One iteration of the `while (time < endTime)` loop of `calculatePasses`.
`track time = none` models a null propagated position or a thrown error
(both skip the sample); otherwise `track time` is the computed look angle. -/
def passStep (track : ℤ → Option LookAngle)
    (st : List Pass × Option CurrentPass) (time : ℤ) :
    List Pass × Option CurrentPass :=
  match track time with
  | none => st
  | some la =>
    if MIN_ELEVATION ≤ la.elevation then
      let cp0 :=
        match st.2 with
        | none => newCurrentPass time la
        | some cp => cp
      let cp1 := trackMax cp0 time la
      let cp2 := { cp1 with
        points := cp1.points ++ [⟨time, la.azimuth, la.elevation, la.rng⟩] }
      (st.1, some cp2)
    else
      match st.2 with
      | none => st
      | some cp =>
        let p := closePass cp time la
        if 60 ≤ p.duration ∧ MIN_ELEVATION ≤ p.maxElevation then
          (st.1 ++ [p], none)
        else (st.1, none)

/-- Number of loop iterations: the `while (time < endTime)` loop with a fixed
`TIME_STEP` advance runs `⌈duration / TIME_STEP⌉` times (0 when the duration
is not positive). -/
def numSteps (duration : ℤ) : ℕ :=
  if duration ≤ 0 then 0 else (duration - 1).toNat / 60000 + 1

/-- The sampled instants `startTime + k · TIME_STEP`, `k < numSteps`. -/
def sampleTimes (startTime duration : ℤ) : List ℤ :=
  (List.range (numSteps duration)).map (fun k : ℕ => startTime + (k : ℤ) * TIME_STEP)

/-- `calculatePasses` from i18n.js, over an abstract look-angle track
(composition of `satellite.propagate`, `eciToEcf` and `getLookAngle`).
`duration` is the prediction window in milliseconds (source default: 24 h). -/
def calculatePasses (track : ℤ → Option LookAngle) (startTime duration : ℤ) :
    List Pass :=
  let st := (sampleTimes startTime duration).foldl (passStep track) ([], none)
  match st.2 with
  | none => st.1
  | some cp =>
    let horizonT := startTime + (numSteps duration : ℤ) * TIME_STEP
    let p := boundaryClose cp horizonT
    if 60 ≤ p.duration then st.1 ++ [p] else st.1

/-- Invariant of an in-progress pass after processing all samples up to time
`bound`. -/
structure GoodCur (cp : CurrentPass) (bound : ℤ) : Prop where
  ne : cp.points ≠ []
  pts : ∀ pt ∈ cp.points,
    MIN_ELEVATION ≤ pt.elevation ∧ cp.startTime ≤ pt.time ∧ pt.time ≤ bound
  maxMem : ∃ pt ∈ cp.points, pt.elevation = cp.maxElevation
  maxUb : ∀ pt ∈ cp.points, pt.elevation ≤ cp.maxElevation
  startLe : cp.startTime ≤ cp.maxElevationTime
  maxTimeLe : cp.maxElevationTime ≤ bound
  minEl : MIN_ELEVATION ≤ cp.maxElevation

/-- Invariant of every completed pass emitted by the state machine. -/
structure GoodPass (p : Pass) : Prop where
  ne : p.points ≠ []
  pts : ∀ pt ∈ p.points,
    MIN_ELEVATION ≤ pt.elevation ∧ p.startTime ≤ pt.time ∧ pt.time ≤ p.endTime
  maxMem : ∃ pt ∈ p.points, pt.elevation = p.maxElevation
  maxUb : ∀ pt ∈ p.points, pt.elevation ≤ p.maxElevation
  startLe : p.startTime ≤ p.maxElevationTime
  maxTimeLt : p.maxElevationTime < p.endTime
  dur : 60 ≤ p.duration
  endDir : p.endDirection = p.endAzimuth.bind (fun a => getCardinalDirection a)

/-- Loop invariant of `calculatePasses` after processing all samples up to
time `bound`. -/
structure StInv (st : List Pass × Option CurrentPass) (bound : ℤ) : Prop where
  passes : ∀ p ∈ st.1, GoodPass p ∧ ∃ a, p.endAzimuth = some a
  cur : ∀ cp, st.2 = some cp → GoodCur cp bound

lemma GoodCur_mono {cp : CurrentPass} {b b' : ℤ} (h : GoodCur cp b) (hb : b ≤ b') :
    GoodCur cp b' where
  ne := h.ne
  pts := fun pt hpt =>
    ⟨(h.pts pt hpt).1, (h.pts pt hpt).2.1, le_trans (h.pts pt hpt).2.2 hb⟩
  maxMem := h.maxMem
  maxUb := h.maxUb
  startLe := h.startLe
  maxTimeLe := le_trans h.maxTimeLe hb
  minEl := h.minEl

lemma StInv_mono {st : List Pass × Option CurrentPass} {b b' : ℤ}
    (h : StInv st b) (hb : b ≤ b') : StInv st b' where
  passes := h.passes
  cur := fun cp hcp => GoodCur_mono (h.cur cp hcp) hb

lemma passStep_inv (track : ℤ → Option LookAngle)
    (st : List Pass × Option CurrentPass) (b t : ℤ)
    (h : StInv st b) (hbt : b < t) :
    StInv (passStep track st t) t := by
  unfold passStep
  cases htr : track t with
  | none => exact StInv_mono h (le_of_lt hbt)
  | some la =>
    dsimp only
    by_cases hel : MIN_ELEVATION ≤ la.elevation
    · rw [if_pos hel]
      cases hcp : st.2 with
      | none =>
        refine ⟨h.passes, ?_⟩
        intro cp' hcp'
        rw [show trackMax (newCurrentPass t la) t la = newCurrentPass t la from by
          simp [trackMax, newCurrentPass]] at hcp'
        cases Option.some.inj hcp'
        constructor
        · simp [newCurrentPass]
        · intro pt hpt
          simp [newCurrentPass] at hpt
          subst hpt
          exact ⟨hel, le_refl t, le_refl t⟩
        · exact ⟨⟨t, la.azimuth, la.elevation, la.rng⟩, by simp [newCurrentPass], rfl⟩
        · intro pt hpt
          simp [newCurrentPass] at hpt
          subst hpt
          exact le_refl _
        · exact le_refl t
        · exact le_refl t
        · exact hel
      | some cp =>
        have hc := h.cur cp hcp
        have hstart : cp.startTime ≤ t :=
          le_trans (le_trans hc.startLe hc.maxTimeLe) (le_of_lt hbt)
        refine ⟨h.passes, ?_⟩
        intro cp' hcp'
        cases Option.some.inj hcp'
        unfold trackMax
        by_cases hup : cp.maxElevation < la.elevation
        · rw [if_pos hup]
          constructor
          · simp
          · intro pt hpt
            simp only [List.mem_append, List.mem_singleton] at hpt
            rcases hpt with hpt | hpt
            · exact ⟨(hc.pts pt hpt).1, (hc.pts pt hpt).2.1,
                le_trans (hc.pts pt hpt).2.2 (le_of_lt hbt)⟩
            · subst hpt
              exact ⟨hel, hstart, le_refl t⟩
          · exact ⟨⟨t, la.azimuth, la.elevation, la.rng⟩, by simp, rfl⟩
          · intro pt hpt
            simp only [List.mem_append, List.mem_singleton] at hpt
            rcases hpt with hpt | hpt
            · exact le_trans (hc.maxUb pt hpt) (le_of_lt hup)
            · subst hpt
              exact le_refl _
          · exact hstart
          · exact le_refl t
          · exact le_trans hc.minEl (le_of_lt hup)
        · rw [if_neg hup]
          push_neg at hup
          constructor
          · simp
          · intro pt hpt
            simp only [List.mem_append, List.mem_singleton] at hpt
            rcases hpt with hpt | hpt
            · exact ⟨(hc.pts pt hpt).1, (hc.pts pt hpt).2.1,
                le_trans (hc.pts pt hpt).2.2 (le_of_lt hbt)⟩
            · subst hpt
              exact ⟨hel, hstart, le_refl t⟩
          · obtain ⟨pt, hpt, hmax⟩ := hc.maxMem
            exact ⟨pt, List.mem_append_left _ hpt, hmax⟩
          · intro pt hpt
            simp only [List.mem_append, List.mem_singleton] at hpt
            rcases hpt with hpt | hpt
            · exact hc.maxUb pt hpt
            · subst hpt
              exact hup
          · exact hc.startLe
          · exact le_trans hc.maxTimeLe (le_of_lt hbt)
          · exact hc.minEl
    · rw [if_neg hel]
      cases hcp : st.2 with
      | none => exact StInv_mono h (le_of_lt hbt)
      | some cp =>
        dsimp only
        have hc := h.cur cp hcp
        by_cases hacc : 60 ≤ (closePass cp t la).duration ∧
            MIN_ELEVATION ≤ (closePass cp t la).maxElevation
        · rw [if_pos hacc]
          refine ⟨?_, by intro cp' hcp'; cases hcp'⟩
          intro p hp
          rcases List.mem_append.mp hp with hp | hp
          · exact h.passes p hp
          · rw [List.mem_singleton] at hp
            subst hp
            refine ⟨?_, la.azimuth, rfl⟩
            constructor
            · exact hc.ne
            · intro pt hpt
              exact ⟨(hc.pts pt hpt).1, (hc.pts pt hpt).2.1,
                le_trans (hc.pts pt hpt).2.2 (le_of_lt hbt)⟩
            · exact hc.maxMem
            · exact hc.maxUb
            · exact hc.startLe
            · exact lt_of_le_of_lt hc.maxTimeLe hbt
            · exact hacc.1
            · rfl
        · rw [if_neg hacc]
          exact ⟨h.passes, by intro cp' hcp'; cases hcp'⟩

lemma foldl_passStep_inv (track : ℤ → Option LookAngle) (ts : List ℤ) :
    ∀ (st : List Pass × Option CurrentPass) (b B : ℤ),
      StInv st b → ts.Pairwise (· < ·) → (∀ t ∈ ts, b < t) → b ≤ B →
      (∀ t ∈ ts, t ≤ B) →
      StInv (ts.foldl (passStep track) st) B := by
  induction ts with
  | nil => intro st b B h _ _ hB _; exact StInv_mono h hB
  | cons t ts ih =>
    intro st b B h hpw hgt hB htB
    rw [List.pairwise_cons] at hpw
    rw [List.foldl_cons]
    exact ih (passStep track st t) t B
      (passStep_inv track st b t h (hgt t (List.mem_cons_self t ts)))
      hpw.2 hpw.1 (htB t (List.mem_cons_self t ts))
      (fun t' ht' => htB t' (List.mem_cons_of_mem _ ht'))

lemma mem_sampleTimes {s d t : ℤ} :
    t ∈ sampleTimes s d ↔ ∃ k : ℕ, k < numSteps d ∧ t = s + (k : ℤ) * TIME_STEP := by
  unfold sampleTimes
  constructor
  · intro h
    obtain ⟨k, hk, he⟩ := List.mem_map.mp h
    exact ⟨k, List.mem_range.mp hk, he.symm⟩
  · rintro ⟨k, hk, rfl⟩
    exact List.mem_map.mpr ⟨k, List.mem_range.mpr hk, rfl⟩

lemma sampleTimes_pairwise (s d : ℤ) : (sampleTimes s d).Pairwise (· < ·) := by
  unfold sampleTimes
  apply List.Pairwise.map (fun k : ℕ => s + (k : ℤ) * TIME_STEP) ?_
    (List.pairwise_lt_range (numSteps d))
  intro a b hab
  dsimp only
  unfold TIME_STEP
  have : (a : ℤ) < (b : ℤ) := by exact_mod_cast hab
  nlinarith

lemma sampleTimes_gt (s d : ℤ) : ∀ t ∈ sampleTimes s d, s - 1 < t := by
  intro t ht
  obtain ⟨k, _, rfl⟩ := mem_sampleTimes.mp ht
  unfold TIME_STEP
  have : (0 : ℤ) ≤ (k : ℤ) := Int.natCast_nonneg k
  nlinarith

lemma sampleTimes_le (s d : ℤ) :
    ∀ t ∈ sampleTimes s d, t ≤ s + (numSteps d : ℤ) * TIME_STEP - 1 := by
  intro t ht
  obtain ⟨k, hk, rfl⟩ := mem_sampleTimes.mp ht
  unfold TIME_STEP
  have hk' : (k : ℤ) + 1 ≤ (numSteps d : ℤ) := by exact_mod_cast hk
  nlinarith

/-- Every pass returned by `calculatePasses` satisfies the structural
invariant, and a pass with no recorded end azimuth can only be the one closed
at the horizon boundary `startTime + numSteps · TIME_STEP`. -/
lemma calculatePasses_good (track : ℤ → Option LookAngle) (s d : ℤ) :
    ∀ p ∈ calculatePasses track s d,
      GoodPass p ∧
      (p.endAzimuth = none → p.endTime = s + (numSteps d : ℤ) * TIME_STEP) := by
  intro p hp
  have hinv : StInv ((sampleTimes s d).foldl (passStep track) ([], none))
      (s + (numSteps d : ℤ) * TIME_STEP - 1) := by
    apply foldl_passStep_inv track (sampleTimes s d) ([], none) (s - 1)
    · exact ⟨(by intro q hq; cases hq), (by intro cp hcp; cases hcp)⟩
    · exact sampleTimes_pairwise s d
    · exact sampleTimes_gt s d
    · have : (0 : ℤ) ≤ (numSteps d : ℤ) * TIME_STEP := by
        unfold TIME_STEP
        positivity
      linarith
    · exact sampleTimes_le s d
  unfold calculatePasses at hp
  dsimp only at hp
  cases hcp : ((sampleTimes s d).foldl (passStep track) ([], none)).2 with
  | none =>
    rw [hcp] at hp
    obtain ⟨hg, a, ha⟩ := hinv.passes p hp
    exact ⟨hg, fun hnone => absurd (hnone ▸ ha) (by simp)⟩
  | some cp =>
    rw [hcp] at hp
    dsimp only at hp
    have hc := hinv.cur cp hcp
    split_ifs at hp with hdur
    · rcases List.mem_append.mp hp with hp' | hp'
      · obtain ⟨hg, a, ha⟩ := hinv.passes p hp'
        exact ⟨hg, fun hnone => absurd (hnone ▸ ha) (by simp)⟩
      · rw [List.mem_singleton] at hp'
        subst hp'
        refine ⟨?_, fun _ => rfl⟩
        constructor
        · exact hc.ne
        · intro pt hpt
          refine ⟨(hc.pts pt hpt).1, (hc.pts pt hpt).2.1, ?_⟩
          have := (hc.pts pt hpt).2.2
          unfold boundaryClose
          dsimp only
          linarith
        · exact hc.maxMem
        · exact hc.maxUb
        · exact hc.startLe
        · have := hc.maxTimeLe
          unfold boundaryClose
          dsimp only
          linarith
        · exact hdur
        · rfl
    · obtain ⟨hg, a, ha⟩ := hinv.passes p hp
      exact ⟨hg, fun hnone => absurd (hnone ▸ ha) (by simp)⟩

/-- C2: every sample stored in a returned Pass's points list has elevation ≥
the 10-degree minimum, the pass's maxElevation equals the maximum elevation
over its stored samples, and every stored sample's time lies within
[startTime, endTime]. -/
theorem pass_samples_invariant (track : ℤ → Option LookAngle) (s d : ℤ)
    (p : Pass) (hp : p ∈ calculatePasses track s d) :
    (∀ pt ∈ p.points, MIN_ELEVATION ≤ pt.elevation) ∧
    (∃ pt ∈ p.points, pt.elevation = p.maxElevation) ∧
    (∀ pt ∈ p.points, pt.elevation ≤ p.maxElevation) ∧
    (∀ pt ∈ p.points, p.startTime ≤ pt.time ∧ pt.time ≤ p.endTime) := by
  obtain ⟨hg, -⟩ := calculatePasses_good track s d p hp
  exact ⟨fun pt hpt => (hg.pts pt hpt).1, hg.maxMem, hg.maxUb,
    fun pt hpt => ⟨(hg.pts pt hpt).2.1, (hg.pts pt hpt).2.2⟩⟩

/-- C6 (amended): every returned Pass satisfies
startTime ≤ maxElevationTime < endTime — the first inequality is not strict
even for passes closed within the horizon, because the running maximum is
initialised at the first sample and updated only on strictly larger
elevations. -/
theorem pass_time_ordering_amended (track : ℤ → Option LookAngle) (s d : ℤ)
    (p : Pass) (hp : p ∈ calculatePasses track s d) :
    p.startTime ≤ p.maxElevationTime ∧ p.maxElevationTime < p.endTime := by
  obtain ⟨hg, -⟩ := calculatePasses_good track s d p hp
  exact ⟨hg.startLe, hg.maxTimeLt⟩

/-- C9 (amended): every returned Pass always carries startAzimuth,
maxAzimuth and maxElevation, and its endDirection is determined by its
endAzimuth; a normally closed pass records endAzimuth/endDirection, while a
boundary-closed pass (the only way endAzimuth can be absent) leaves them
undefined and records only endTime (the horizon boundary) and duration,
accepted under the same 60 s duration rule. -/
theorem pass_end_fields_amended (track : ℤ → Option LookAngle) (s d : ℤ)
    (p : Pass) (hp : p ∈ calculatePasses track s d) :
    p.endDirection = p.endAzimuth.bind (fun a => getCardinalDirection a) ∧
    60 ≤ p.duration ∧
    (p.endAzimuth = none → p.endTime = s + (numSteps d : ℤ) * TIME_STEP) := by
  obtain ⟨hg, hbd⟩ := calculatePasses_good track s d p hp
  exact ⟨hg.endDir, hg.dur, hbd⟩

/-! Concrete tracks used to evaluate the pass state machine. -/

lemma gc180 : getCardinalDirection 180 = some "S" := by
  unfold getCardinalDirection jsRound
  norm_num
  rw [show ((8 : ℤ)).tmod 16 = 8 from rfl]
  norm_num [directions]
  rfl

lemma gc90 : getCardinalDirection 90 = some "E" := by
  unfold getCardinalDirection jsRound
  norm_num
  rw [show ((4 : ℤ)).tmod 16 = 4 from rfl]
  norm_num [directions]
  rfl

/-- A track whose elevation declines monotonically through a pass: 20° at
t = 0, 15° at t = 60 s, below threshold afterwards. -/
def trackDecl : ℤ → Option LookAngle := fun t =>
  if t = 0 then some ⟨180, 20, 1000⟩
  else if t = 60000 then some ⟨180, 15, 1000⟩
  else some ⟨180, 0, 1000⟩

/-- The single Pass produced by `trackDecl` over a 4-minute window. -/
def passDecl : Pass :=
  { startTime := 0
    startAzimuth := 180
    startDirection := some "S"
    maxElevation := 20
    maxElevationTime := 0
    maxAzimuth := 180
    points := [⟨0, 180, 20, 1000⟩, ⟨60000, 180, 15, 1000⟩]
    endTime := 120000
    endAzimuth := some 180
    endDirection := some "S"
    duration := 120 }

lemma passes_trackDecl : calculatePasses trackDecl 0 240000 = [passDecl] := by
  rw [show calculatePasses trackDecl 0 240000 =
      (let st := (sampleTimes 0 240000).foldl (passStep trackDecl) ([], none)
       match st.2 with
       | none => st.1
       | some cp =>
         let horizonT := 0 + (numSteps 240000 : ℤ) * TIME_STEP
         let p := boundaryClose cp horizonT
         if 60 ≤ p.duration then st.1 ++ [p] else st.1) from rfl]
  rw [show sampleTimes 0 240000 = [0, 60000, 120000, 180000] from rfl]
  norm_num [passStep, trackDecl, newCurrentPass, trackMax, closePass,
    MIN_ELEVATION, gc180, passDecl]

/-- C6 counterexample: `trackDecl` produces a pass, closed within the search
horizon (its endAzimuth is recorded), whose culmination coincides with its
start sample: startTime = maxElevationTime, so the claimed strict ordering
startTime < maxElevationTime < endTime fails. -/
theorem pass_culmination_not_strict_counterexample :
    calculatePasses trackDecl 0 240000 = [passDecl] ∧
    passDecl.startTime = passDecl.maxElevationTime ∧
    passDecl.endAzimuth = some 180 :=
  ⟨passes_trackDecl, rfl, rfl⟩

/-- Witness for `pass_time_ordering_amended` on the concrete pass of
`trackDecl`. -/
theorem pass_time_ordering_amended_witness :
    passDecl.startTime ≤ passDecl.maxElevationTime ∧
    passDecl.maxElevationTime < passDecl.endTime :=
  pass_time_ordering_amended trackDecl 0 240000 passDecl
    (by rw [passes_trackDecl]; exact List.mem_singleton.mpr rfl)

/-- Witness for `pass_samples_invariant` on the first stored sample of the
concrete pass of `trackDecl`. -/
theorem pass_samples_invariant_witness :
    MIN_ELEVATION ≤ (⟨0, 180, 20, 1000⟩ : PassPoint).elevation :=
  (pass_samples_invariant trackDecl 0 240000 passDecl
      (by rw [passes_trackDecl]; exact List.mem_singleton.mpr rfl)).1
    ⟨0, 180, 20, 1000⟩ (by simp [passDecl])

/-- A track permanently above threshold: elevation 20° at every sample. -/
def trackUp : ℤ → Option LookAngle := fun _ => some ⟨90, 20, 800⟩

/-- The boundary-closed Pass produced by `trackUp` over a 2-minute window:
its endAzimuth and endDirection were never assigned. -/
def passUp : Pass :=
  { startTime := 0
    startAzimuth := 90
    startDirection := some "E"
    maxElevation := 20
    maxElevationTime := 0
    maxAzimuth := 90
    points := [⟨0, 90, 20, 800⟩, ⟨60000, 90, 20, 800⟩]
    endTime := 120000
    endAzimuth := none
    endDirection := none
    duration := 120 }

lemma passes_trackUp : calculatePasses trackUp 0 120000 = [passUp] := by
  rw [show calculatePasses trackUp 0 120000 =
      (let st := (sampleTimes 0 120000).foldl (passStep trackUp) ([], none)
       match st.2 with
       | none => st.1
       | some cp =>
         let horizonT := 0 + (numSteps 120000 : ℤ) * TIME_STEP
         let p := boundaryClose cp horizonT
         if 60 ≤ p.duration then st.1 ++ [p] else st.1) from rfl]
  rw [show sampleTimes 0 120000 = [0, 60000] from rfl]
  norm_num [passStep, trackUp, newCurrentPass, trackMax, boundaryClose,
    MIN_ELEVATION, gc90, passUp, TIME_STEP, numSteps]

/-- C9 counterexample: the pass closed at the horizon boundary by `trackUp`
carries no endAzimuth and no endDirection — the boundary-close path assigns
only endTime and duration, so a boundary-closed pass does not record the same
end-of-pass fields as a normally closed one. -/
theorem pass_boundary_missing_end_azimuth_counterexample :
    calculatePasses trackUp 0 120000 = [passUp] ∧
    passUp.endAzimuth = none ∧ passUp.endDirection = none :=
  ⟨passes_trackUp, rfl, rfl⟩

/-- Witness for `pass_end_fields_amended` on the boundary-closed pass of
`trackUp`. -/
theorem pass_end_fields_amended_witness :
    passUp.endDirection = passUp.endAzimuth.bind (fun a => getCardinalDirection a) ∧
    60 ≤ passUp.duration ∧
    passUp.endTime = 0 + (numSteps 120000 : ℤ) * TIME_STEP := by
  have h := pass_end_fields_amended trackUp 0 120000 passUp
    (by rw [passes_trackUp]; exact List.mem_singleton.mpr rfl)
  exact ⟨h.1, h.2.1, h.2.2 rfl⟩

/-- A track above threshold exactly on the window [0 ms, 90000 ms). -/
def track90 : ℤ → Option LookAngle := fun t =>
  some ⟨90, if 0 ≤ t ∧ t < 90000 then 15 else 0, 500⟩

/-- A track above threshold exactly on [0 ms, 30000 ms): a 30-second window
containing the sampled instant t = 0. -/
def track30on : ℤ → Option LookAngle := fun t =>
  some ⟨90, if 0 ≤ t ∧ t < 30000 then 15 else 0, 500⟩

/-- A track above threshold exactly on [10000 ms, 40000 ms): a 30-second
window containing no sampled instant. -/
def track30off : ℤ → Option LookAngle := fun t =>
  some ⟨90, if 10000 ≤ t ∧ t < 40000 then 15 else 0, 500⟩

/-- The Pass produced by `track90` over a 5-minute search window. -/
def pass90 : Pass :=
  { startTime := 0
    startAzimuth := 90
    startDirection := some "E"
    maxElevation := 15
    maxElevationTime := 0
    maxAzimuth := 90
    points := [⟨0, 90, 15, 500⟩, ⟨60000, 90, 15, 500⟩]
    endTime := 120000
    endAzimuth := some 90
    endDirection := some "E"
    duration := 120 }

/-- The Pass produced by `track30on` over a 5-minute search window: a single
sample, measured duration exactly 60 s. -/
def pass30 : Pass :=
  { startTime := 0
    startAzimuth := 90
    startDirection := some "E"
    maxElevation := 15
    maxElevationTime := 0
    maxAzimuth := 90
    points := [⟨0, 90, 15, 500⟩]
    endTime := 60000
    endAzimuth := some 90
    endDirection := some "E"
    duration := 60 }

lemma passes_track90 : calculatePasses track90 0 300000 = [pass90] := by
  rw [show calculatePasses track90 0 300000 =
      (let st := (sampleTimes 0 300000).foldl (passStep track90) ([], none)
       match st.2 with
       | none => st.1
       | some cp =>
         let horizonT := 0 + (numSteps 300000 : ℤ) * TIME_STEP
         let p := boundaryClose cp horizonT
         if 60 ≤ p.duration then st.1 ++ [p] else st.1) from rfl]
  rw [show sampleTimes 0 300000 = [0, 60000, 120000, 180000, 240000] from rfl]
  norm_num [passStep, track90, newCurrentPass, trackMax, closePass,
    MIN_ELEVATION, gc90, pass90]

lemma passes_track30on : calculatePasses track30on 0 300000 = [pass30] := by
  rw [show calculatePasses track30on 0 300000 =
      (let st := (sampleTimes 0 300000).foldl (passStep track30on) ([], none)
       match st.2 with
       | none => st.1
       | some cp =>
         let horizonT := 0 + (numSteps 300000 : ℤ) * TIME_STEP
         let p := boundaryClose cp horizonT
         if 60 ≤ p.duration then st.1 ++ [p] else st.1) from rfl]
  rw [show sampleTimes 0 300000 = [0, 60000, 120000, 180000, 240000] from rfl]
  norm_num [passStep, track30on, newCurrentPass, trackMax, closePass,
    MIN_ELEVATION, gc90, pass30]

lemma passes_track30off : calculatePasses track30off 0 300000 = [] := by
  rw [show calculatePasses track30off 0 300000 =
      (let st := (sampleTimes 0 300000).foldl (passStep track30off) ([], none)
       match st.2 with
       | none => st.1
       | some cp =>
         let horizonT := 0 + (numSteps 300000 : ℤ) * TIME_STEP
         let p := boundaryClose cp horizonT
         if 60 ≤ p.duration then st.1 ++ [p] else st.1) from rfl]
  rw [show sampleTimes 0 300000 = [0, 60000, 120000, 180000, 240000] from rfl]
  norm_num [passStep, track30off, MIN_ELEVATION]

/-- C5 (amended): a completed pass is accepted only if its measured duration
is ≥ 60 s.  Because samples are 60 s apart, the measured duration is a
multiple of the step: a 30-second above-threshold window yields one Pass
(measured duration exactly 60 s) when it contains a sampled instant and zero
Passes when it does not; a 90-second window yields exactly one Pass. -/
theorem pass_duration_filter_amended (track : ℤ → Option LookAngle) (s d : ℤ)
    (p : Pass) (hp : p ∈ calculatePasses track s d) :
    60 ≤ p.duration ∧
    (calculatePasses track90 0 300000).length = 1 ∧
    calculatePasses track30off 0 300000 = [] :=
  ⟨(calculatePasses_good track s d p hp).1.dur,
   by rw [passes_track90]; rfl,
   passes_track30off⟩

/-- Witness for `pass_duration_filter_amended` on the concrete pass of
`track90`. -/
theorem pass_duration_filter_amended_witness :
    60 ≤ pass90.duration ∧
    (calculatePasses track90 0 300000).length = 1 ∧
    calculatePasses track30off 0 300000 = [] :=
  pass_duration_filter_amended track90 0 300000 pass90
    (by rw [passes_track90]; exact List.mem_singleton.mpr rfl)

/-- C5 counterexample: `track30on` is above threshold exactly on the
30-second window [0, 30000) ms, yet `calculatePasses` returns one Pass (with
measured duration 60 s), because the window contains the sampled instant
t = 0 and the next sample is 60 s later — so a 30-second above-threshold
window does not always yield zero Passes. -/
theorem pass_30s_window_counterexample :
    calculatePasses track30on 0 300000 = [pass30] ∧
    pass30.duration = 60 ∧
    track30on 0 = some ⟨90, 15, 500⟩ ∧
    track30on 29999 = some ⟨90, 15, 500⟩ ∧
    track30on 30000 = some ⟨90, 0, 500⟩ := by
  refine ⟨passes_track30on, rfl, ?_, ?_, ?_⟩ <;> norm_num [track30on]

end OrbitViz
